import Mathlib

/-!
Verification of the TextWindows module (TextWindows.py): a shallow embedding
of the TextWindow and TextPad classes and theorems about their scrolling,
clipping and error-handling behaviour.

Conventions of the embedding:
* Text is a List Char; Python slicing, ljust and expandtabs are modelled by
  pySliceTo, pySliceFrom, pyLjust and expandtabs below, with Python's
  negative-index semantics.
* The curses collaborator is modelled abstractly: curses.LINES and
  curses.COLS are the fields of a Terminal value; an addstr call is a
  DrawOp, and it raises a curses error exactly when it falls outside the
  window rectangle (addstrOk).  Drawing is recorded as a trace of DrawOps.
* Exceptions are modelled as values: a caught exception surfaces as the
  err field of a ScrollResult (holding the AdditionalInfo string that the
  source hands to ErrorHandler), never as a Lean failure.
* The while loop of ScrollPrint is written with an explicit fuel argument
  (one unit per iteration) so that it is structurally recursive; the fuel
  supplied by ScrollPrint, printable.length + remaining.length + 1, is
  provably sufficient because each iteration consumes a nonempty printable
  slice.
-/

/-- Python slice endpoint resolution for s[0:n] and s[n:]: a negative index
counts from the end of the string, clamped at 0. -/
def pyIdx (len : Nat) (n : Int) : Nat :=
  if n < 0 then ((len : Int) + n).toNat else n.toNat

/-- Python s[0:n] on a list of characters. -/
def pySliceTo (s : List Char) (n : Int) : List Char :=
  s.take (pyIdx s.length n)

/-- Python s[n:] on a list of characters. -/
def pySliceFrom (s : List Char) (n : Int) : List Char :=
  s.drop (pyIdx s.length n)

/-- Python s.ljust(n, ' '): pad on the right with spaces up to width n
(no-op when n is at most the length, including negative n). -/
def pyLjust (s : List Char) (n : Int) : List Char :=
  s ++ List.replicate (n.toNat - s.length) ' '

/-- Python str.expandtabs helper: walks the string tracking the current
column; a tab advances to the next multiple of the tab stop, a newline or
carriage return resets the column. -/
def expandtabsAux (ts : Nat) : Nat → List Char → List Char
  | _, [] => []
  | col, c :: rest =>
    if c = '\t' then
      List.replicate (ts - col % ts) ' ' ++ expandtabsAux ts (col + (ts - col % ts)) rest
    else if c = '\n' ∨ c = '\r' then
      c :: expandtabsAux ts 0 rest
    else
      c :: expandtabsAux ts (col + 1) rest

/-- PrintLine.expandtabs(4), as called by ScrollPrint and PadPrint. -/
def expandtabs (s : List Char) : List Char :=
  expandtabsAux 4 0 s

/-- The terminal size reported by curses: curses.LINES and curses.COLS. -/
structure Terminal where
  lines : Int
  cols : Int
deriving Repr, DecidableEq, Inhabited

/-- One window.addstr call: position, text, color pair and bold flag. -/
structure DrawOp where
  row : Int
  col : Int
  text : List Char
  color : Int
  bold : Bool
deriving Repr, DecidableEq, Inhabited

/-- Whether an addstr call succeeds on a curses window of the given size:
it raises a curses error exactly when the write falls outside the window
rectangle. -/
def addstrOk (winRows winCols : Int) (op : DrawOp) : Bool :=
  decide (0 ≤ op.row) && decide (op.row < winRows) &&
    decide (0 ≤ op.col) && decide (op.col < winCols) &&
    decide (op.col + (op.text.length : Int) ≤ winCols)

/-- State of a TextWindow instance: every attribute assigned by
TextWindow.__init__ (the curses window object itself is represented by the
rows and columns it was allocated with). -/
structure TextWindow where
  name : String
  rows : Int
  columns : Int
  y1 : Int
  x1 : Int
  y2 : Int
  x2 : Int
  ShowBorder : String
  BorderColor : Int
  CurrentRow : Int
  StartColumn : Int
  DisplayRows : Int
  DisplayColumns : Int
  PreviousLineText : List Char
  PreviousLineRow : Int
  PreviousLineColor : Int
  Title : List Char
  TitleColor : Int
deriving Repr, DecidableEq, Inhabited

/-- TextWindow.__init__: clamps the requested size with
min(requested, (curses.LINES - 1) - y1) and
min(requested, (curses.COLS - 1) - x1), raises ValueError when either
clamped dimension is nonpositive, and otherwise fills in the attributes;
with ShowBorder = "Y" the cursor starts at (1,1) and the display area
loses 2 rows and 2 columns, otherwise the cursor starts at (0,0) and the
display area is the full window.  (The y2 and x2 attributes reproduce the
source literally: both add the requested rows.) -/
def mkTextWindow (term : Terminal) (name : String) (rows columns y1 x1 : Int)
    (ShowBorder : String) (BorderColor TitleColor : Int) :
    Except String TextWindow :=
  let max_y := term.lines - 1
  let max_x := term.cols - 1
  let erows := min rows (max_y - y1)
  let ecols := min columns (max_x - x1)
  if erows ≤ 0 ∨ ecols ≤ 0 then
    Except.error "Window size exceeds terminal size. Please expand your terminal."
  else
    Except.ok
      { name := name
        rows := erows
        columns := ecols
        y1 := y1
        x1 := x1
        y2 := y1 + rows
        x2 := x1 + rows
        ShowBorder := ShowBorder
        BorderColor := BorderColor
        CurrentRow := if ShowBorder = "Y" then 1 else 0
        StartColumn := if ShowBorder = "Y" then 1 else 0
        DisplayRows := if ShowBorder = "Y" then erows - 2 else erows
        DisplayColumns := if ShowBorder = "Y" then ecols - 2 else ecols
        PreviousLineText := []
        PreviousLineRow := 0
        PreviousLineColor := 2
        Title := []
        TitleColor := TitleColor }

/-- The redraw of the previously saved line performed at the top of each
ScrollPrint loop iteration: saved text, at its saved row, in its saved
color, without bold. -/
def prevOp (w : TextWindow) : DrawOp :=
  { row := w.PreviousLineRow
    col := w.StartColumn
    text := w.PreviousLineText
    color := w.PreviousLineColor
    bold := false }

/-- The draw of the current chunk in a ScrollPrint loop iteration. -/
def chunkOp (w : TextWindow) (color : Int) (bold : Bool) (ps : List Char) : DrawOp :=
  { row := w.CurrentRow
    col := w.StartColumn
    text := ps
    color := color
    bold := bold }

/-- The state update at the end of a successful ScrollPrint loop iteration:
save the chunk, its color and its row, and advance the cursor row. -/
def updateW (w : TextWindow) (color : Int) (ps : List Char) : TextWindow :=
  { w with
    PreviousLineText := ps
    PreviousLineColor := color
    PreviousLineRow := w.CurrentRow
    CurrentRow := w.CurrentRow + 1 }

/-- The while loop of ScrollPrint (lines 106-127 of the source), with an
explicit fuel argument for termination.  Each iteration left-justifies the
current printable slice, redraws the previous line, draws the chunk, saves
it and advances; the first addstr that falls outside the window raises,
which aborts the loop with the partial trace and state (the Bool result
records that an exception escaped to the except clause). -/
def scrollLoopFuel (color : Int) (bold : Bool) :
    Nat → TextWindow → List Char → List Char → List DrawOp →
    TextWindow × List DrawOp × Bool
  | 0, w, _, _, acc => (w, acc, false)
  | fuel + 1, w, printable, remaining, acc =>
    if printable = [] then (w, acc, false)
    else
      let ps := pyLjust printable w.DisplayColumns
      if addstrOk w.rows w.columns (prevOp w) then
        if addstrOk w.rows w.columns (chunkOp w color bold ps) then
          scrollLoopFuel color bold fuel (updateW w color ps)
            (pySliceTo remaining w.DisplayColumns)
            (pySliceFrom remaining w.DisplayColumns)
            (acc ++ [prevOp w, chunkOp w color bold ps])
        else (w, acc ++ [prevOp w], true)
      else (w, acc, true)

/-- The post-loop wrap check of ScrollPrint (lines 129-133): if the cursor
row has moved past DisplayRows, wrap it to 1 for a bordered window and to
0 otherwise. -/
def wrapAdjust (w : TextWindow) : TextWindow :=
  if w.DisplayRows < w.CurrentRow then
    if w.ShowBorder = "Y" then { w with CurrentRow := 1 }
    else { w with CurrentRow := 0 }
  else w

/-- The text ScrollPrint actually works on: the optional timestamp prefix
(current time, a colon and a space) followed by tab expansion. -/
def processLine (printLine : List Char) (timeStamp : Bool) (now : List Char) :
    List Char :=
  expandtabs (if timeStamp then now ++ ':' :: ' ' :: printLine else printLine)

/-- Result of a ScrollPrint call: the updated instance, the trace of addstr
calls that succeeded, and the AdditionalInfo string handed to ErrorHandler
when an exception was caught (none when the call completed). -/
structure ScrollResult where
  w : TextWindow
  ops : List DrawOp
  err : Option (List Char)
deriving Repr, DecidableEq, Inhabited

/-- TextWindow.ScrollPrint: timestamp and tab-expand the text, split it
into a printable head of DisplayColumns characters and a remainder, run
the drawing loop, and either report the caught exception (with the
processed text as AdditionalInfo, skipping the wrap check) or apply the
wrap check. -/
def ScrollPrint (w : TextWindow) (printLine : List Char) (color : Int)
    (timeStamp bold : Bool) (now : List Char) : ScrollResult :=
  let pl := processLine printLine timeStamp now
  let printable := pySliceTo pl w.DisplayColumns
  let remaining := pySliceFrom pl w.DisplayColumns
  let res := scrollLoopFuel color bold (printable.length + remaining.length + 1)
    w printable remaining []
  if res.2.2 then
    { w := res.1, ops := res.2.1, err := some ("PrintLine: ".toList ++ pl) }
  else
    { w := wrapAdjust res.1, ops := res.2.1, err := none }

/-- Result of a DisplayTitle call: the addstr trace, whether the
too-short-window error message was printed, and whether an exception was
caught by the handler. -/
structure TitleResult where
  ops : List DrawOp
  errPrinted : Bool
  caught : Bool
deriving Repr, DecidableEq, Inhabited

/-- TextWindow.DisplayTitle: truncate the stored title with
Title[0 : DisplayColumns - 3]; when the window has more than 2 rows draw
it at row 0, column 2, in the title color (an out-of-bounds addstr is
caught by the handler); otherwise print an error message and draw
nothing. -/
def DisplayTitle (w : TextWindow) : TitleResult :=
  let t := pySliceTo w.Title (w.DisplayColumns - 3)
  if 2 < w.rows then
    if addstrOk w.rows w.columns { row := 0, col := 2, text := t, color := w.TitleColor, bold := false } then
      { ops := [{ row := 0, col := 2, text := t, color := w.TitleColor, bold := false }]
        errPrinted := false
        caught := false }
    else
      { ops := [], errPrinted := false, caught := true }
  else
    { ops := [], errPrinted := true, caught := false }

/-- TextWindow.Clear, state part: erase, border and DisplayTitle touch no
instance attribute; the cursor and start column are reset according to
ShowBorder.  In particular the PreviousLine attributes are left as they
were. -/
def ClearW (w : TextWindow) : TextWindow :=
  { w with
    CurrentRow := if w.ShowBorder = "Y" then 1 else 0
    StartColumn := if w.ShowBorder = "Y" then 1 else 0 }

/-- State of a TextPad instance: every attribute assigned by
TextPad.__init__; padRows and padCols record the size the curses pad was
allocated with (curses.newpad(self.rows, self.columns)). -/
structure TextPad where
  name : String
  rows : Int
  columns : Int
  ypos : Int
  xpos : Int
  height : Int
  width : Int
  padRows : Int
  padCols : Int
  ShowBorder : String
  BorderColor : Int
  PreviousLineColor : Int
deriving Repr, DecidableEq, Inhabited

/-- TextPad.__init__: the same clamping and ValueError policy as
TextWindow.__init__; the y2 and x2 parameters are accepted and never
used; height and width are set to the clamped rows and columns, and the
pad buffer is allocated with exactly those dimensions. -/
def mkTextPad (term : Terminal) (name : String) (rows columns y1 x1 y2 x2 : Int)
    (ShowBorder : String) (BorderColor : Int) : Except String TextPad :=
  let max_y := term.lines - 1
  let max_x := term.cols - 1
  let erows := min rows (max_y - y1)
  let ecols := min columns (max_x - x1)
  if erows ≤ 0 ∨ ecols ≤ 0 then
    Except.error "Pad size exceeds terminal size. Please expand your terminal."
  else
    Except.ok
      { name := name
        rows := erows
        columns := ecols
        ypos := y1
        xpos := x1
        height := erows
        width := ecols
        padRows := erows
        padCols := ecols
        ShowBorder := ShowBorder
        BorderColor := BorderColor
        PreviousLineColor := 2 }

/-- The physical screen rectangle passed to pad.refresh. -/
structure RefreshRect where
  y1 : Int
  x1 : Int
  y2 : Int
  x2 : Int
deriving Repr, DecidableEq, Inhabited

/-- TextPad.refresh: recompute the visible rectangle against the current
terminal size, clamping both corners with min, and project the pad buffer
from its (0,0) corner onto that rectangle. -/
def TextPad.refreshRect (p : TextPad) (term : Terminal) : RefreshRect :=
  let max_y := term.lines - 1
  let max_x := term.cols - 1
  let pad_max_y := p.ypos + p.height - 1
  let pad_max_x := p.xpos + p.width - 1
  { y1 := min p.ypos max_y
    x1 := min p.xpos max_x
    y2 := min pad_max_y max_y
    x2 := min pad_max_x max_x }

/-- TextPad.PadPrint, text part: timestamp, tab-expand, pad to the pad
width with spaces, then truncate to width - 1; the returned list is the
line appended to the pad buffer (followed by a newline in the source). -/
def PadPrint (p : TextPad) (printLine : List Char) (timeStamp : Bool)
    (now : List Char) : List Char :=
  let pl := expandtabs (if timeStamp then now ++ ':' :: ' ' :: printLine else printLine)
  pySliceTo (pyLjust pl p.columns) (p.columns - 1)

/-- The chunk decomposition performed by the ScrollPrint loop, isolated
from the drawing: the successive printable slices, each left-justified to
DisplayColumns (same fuel discipline as scrollLoopFuel). -/
def chunkLoopFuel (dc : Int) : Nat → List Char → List Char → List (List Char)
  | 0, _, _ => []
  | fuel + 1, p, r =>
    if p = [] then []
    else pyLjust p dc :: chunkLoopFuel dc fuel (pySliceTo r dc) (pySliceFrom r dc)

/-- The list of padded chunks a ScrollPrint of the processed text t draws
on a window whose display width is dc. -/
def scrollChunks (dc : Int) (t : List Char) : List (List Char) :=
  chunkLoopFuel dc ((pySliceTo t dc).length + (pySliceFrom t dc).length + 1)
    (pySliceTo t dc) (pySliceFrom t dc)

/-- Restatement of the ScrollPrint loop as a function of the chunk list:
used to relate the fueled loop to the chunk decomposition. -/
def loopSem (color : Int) (bold : Bool) :
    TextWindow → List (List Char) → List DrawOp →
    TextWindow × List DrawOp × Bool
  | w, [], acc => (w, acc, false)
  | w, ps :: rest, acc =>
    if addstrOk w.rows w.columns (prevOp w) then
      if addstrOk w.rows w.columns (chunkOp w color bold ps) then
        loopSem color bold (updateW w color ps) rest
          (acc ++ [prevOp w, chunkOp w color bold ps])
      else (w, acc ++ [prevOp w], true)
    else (w, acc, true)

/-- Whether every addstr of a ScrollPrint run over the given chunk list
stays inside the window (so no exception is raised). -/
def demOk (color : Int) (bold : Bool) : TextWindow → List (List Char) → Bool
  | _, [] => true
  | w, ps :: rest =>
    addstrOk w.rows w.columns (prevOp w) &&
      (addstrOk w.rows w.columns (chunkOp w color bold ps) &&
        demOk color bold (updateW w color ps) rest)

/-- The full draw trace of a ScrollPrint run over the given chunk list:
for each chunk, first the demotion redraw of the saved line (non-bold, at
its saved row, in its saved color), then the chunk itself at the cursor
row. -/
def demTrace (color : Int) (bold : Bool) : TextWindow → List (List Char) → List DrawOp
  | _, [] => []
  | w, ps :: rest =>
    prevOp w :: chunkOp w color bold ps ::
      demTrace color bold (updateW w color ps) rest

/-- The window state after a ScrollPrint run over the given chunk list,
before the wrap check. -/
def advState (color : Int) : TextWindow → List (List Char) → TextWindow
  | w, [] => w
  | w, ps :: rest => advState color (updateW w color ps) rest

/-- Entries at even positions 0, 2, 4, ... of a list. -/
def evenEntries : List α → List α
  | [] => []
  | [a] => [a]
  | a :: _ :: rest => a :: evenEntries rest

/-- Entries at odd positions 1, 3, 5, ... of a list. -/
def oddEntries : List α → List α
  | [] => []
  | [_] => []
  | _ :: b :: rest => b :: oddEntries rest

/-- The chunk texts of a ScrollPrint trace: the text of every second
DrawOp, i.e. of the chunk draws (the interleaved demotion redraws are at
the even positions). -/
def chunkTexts : List DrawOp → List (List Char)
  | [] => []
  | [_] => []
  | _ :: b :: rest => b.text :: chunkTexts rest

/-! Basic lemmas about the Python string helpers. -/

theorem pySliceTo_of_nonneg (s : List Char) (n : Int) (h : 0 ≤ n) :
    pySliceTo s n = s.take n.toNat := by
  unfold pySliceTo pyIdx
  rw [if_neg (not_lt.mpr h)]

theorem pySliceFrom_of_nonneg (s : List Char) (n : Int) (h : 0 ≤ n) :
    pySliceFrom s n = s.drop n.toNat := by
  unfold pySliceFrom pyIdx
  rw [if_neg (not_lt.mpr h)]

theorem slice_length_add (s : List Char) (n : Int) :
    (pySliceTo s n).length + (pySliceFrom s n).length = s.length := by
  unfold pySliceTo pySliceFrom
  simp only [List.length_take, List.length_drop]
  omega

theorem pyLjust_length (s : List Char) (n : Int) :
    (pyLjust s n).length = max s.length n.toNat := by
  unfold pyLjust
  simp only [List.length_append, List.length_replicate]
  omega

/-! Relating the fueled ScrollPrint loop to the chunk decomposition and to
the loopSem restatement. -/

theorem scrollLoopFuel_eq_loopSem (color : Int) (bold : Bool) :
    ∀ (fuel : Nat) (w : TextWindow) (p r : List Char) (acc : List DrawOp),
      scrollLoopFuel color bold fuel w p r acc =
        loopSem color bold w (chunkLoopFuel w.DisplayColumns fuel p r) acc := by
  intro fuel
  induction fuel with
  | zero => intro w p r acc; rfl
  | succ n ih =>
    intro w p r acc
    by_cases hp : p = []
    · simp [scrollLoopFuel, chunkLoopFuel, hp, loopSem]
    · simp only [scrollLoopFuel, chunkLoopFuel, hp, if_false, ite_false, ih, updateW]
      rfl

theorem loopSem_ok (color : Int) (bold : Bool) :
    ∀ (chunks : List (List Char)) (w : TextWindow) (acc : List DrawOp),
      demOk color bold w chunks = true →
      loopSem color bold w chunks acc =
        (advState color w chunks, acc ++ demTrace color bold w chunks, false) := by
  intro chunks
  induction chunks with
  | nil => intro w acc _; simp [loopSem, advState, demTrace]
  | cons ps rest ih =>
    intro w acc h
    simp only [demOk, Bool.and_eq_true] at h
    obtain ⟨h1, h2, h3⟩ := h
    simp [loopSem, h1, h2, demTrace, advState, ih _ _ h3]

theorem loopSem_no_err (color : Int) (bold : Bool) :
    ∀ (chunks : List (List Char)) (w : TextWindow) (acc : List DrawOp),
      (loopSem color bold w chunks acc).2.2 = false →
      demOk color bold w chunks = true := by
  intro chunks
  induction chunks with
  | nil => intro w acc _; rfl
  | cons ps rest ih =>
    intro w acc h
    by_cases h1 : addstrOk w.rows w.columns (prevOp w)
    · by_cases h2 : addstrOk w.rows w.columns (chunkOp w color bold ps)
      · simp only [loopSem, h1, h2, if_true] at h
        simp [demOk, h1, h2, ih _ _ h]
      · simp [loopSem, h1, h2] at h
    · simp [loopSem, h1] at h

theorem loopSem_ops_take (color : Int) (bold : Bool) :
    ∀ (chunks : List (List Char)) (w : TextWindow) (acc : List DrawOp),
      ∃ k, (loopSem color bold w chunks acc).2.1 =
        acc ++ (demTrace color bold w chunks).take k := by
  intro chunks
  induction chunks with
  | nil => intro w acc; exact ⟨0, by simp [loopSem, demTrace]⟩
  | cons ps rest ih =>
    intro w acc
    by_cases h1 : addstrOk w.rows w.columns (prevOp w)
    · by_cases h2 : addstrOk w.rows w.columns (chunkOp w color bold ps)
      · obtain ⟨k, hk⟩ := ih (updateW w color ps) (acc ++ [prevOp w, chunkOp w color bold ps])
        refine ⟨k + 2, ?_⟩
        simp only [loopSem, h1, h2, if_true, hk, demTrace]
        simp [List.take_succ_cons]
      · exact ⟨1, by simp [loopSem, h1, h2, demTrace]⟩
    · exact ⟨0, by simp [loopSem, h1, demTrace]⟩

/-! Properties of the chunk decomposition. -/

theorem slice_append (s : List Char) (n : Int) :
    pySliceTo s n ++ pySliceFrom s n = s :=
  List.take_append_drop _ _

theorem pySliceTo_length (s : List Char) (n : Int) (h : 0 ≤ n) :
    (pySliceTo s n).length = min n.toNat s.length := by
  rw [pySliceTo_of_nonneg _ _ h, List.length_take]

theorem pySliceFrom_length (s : List Char) (n : Int) (h : 0 ≤ n) :
    (pySliceFrom s n).length = s.length - n.toNat := by
  rw [pySliceFrom_of_nonneg _ _ h, List.length_drop]

theorem pySliceTo_ne_nil (s : List Char) (n : Int) (h1 : 1 ≤ n) (h2 : s ≠ []) :
    pySliceTo s n ≠ [] := by
  intro hc
  have hlen := congrArg List.length hc
  rw [pySliceTo_length s n (by omega), List.length_nil] at hlen
  have hs : 0 < s.length := List.length_pos.mpr h2
  omega

theorem chunkLoopFuel_nil (dc : Int) : ∀ (fuel : Nat) (r : List Char),
    chunkLoopFuel dc fuel [] r = [] := by
  intro fuel r
  cases fuel <;> simp [chunkLoopFuel]

theorem ceil_div_step (d L : Nat) (hd : 1 ≤ d) (hL : 1 ≤ L) :
    (L + d - 1) / d = 1 + ((L - d) + d - 1) / d := by
  have h3 : L + d - 1 = (L - 1) + d := by omega
  rcases le_or_lt L d with h | h
  · have h1 : (L - d) + d - 1 = d - 1 := by omega
    rw [h1, show (d - 1) / d = 0 from Nat.div_eq_of_lt (by omega), h3,
      Nat.add_div_right _ (by omega),
      show (L - 1) / d = 0 from Nat.div_eq_of_lt (by omega)]
  · have h4 : (L - d) + d - 1 = L - 1 := by omega
    rw [h3, h4, Nat.add_div_right _ (by omega)]
    omega

theorem chunkLoop_spec (dc : Int) (hdc : 1 ≤ dc) :
    ∀ (fuel : Nat) (s : List Char), s.length < fuel →
      (chunkLoopFuel dc fuel (pySliceTo s dc) (pySliceFrom s dc)).length
          = (s.length + dc.toNat - 1) / dc.toNat ∧
      (∀ c ∈ chunkLoopFuel dc fuel (pySliceTo s dc) (pySliceFrom s dc),
        c.length = dc.toNat) ∧
      (chunkLoopFuel dc fuel (pySliceTo s dc) (pySliceFrom s dc)).flatten
          = s ++ List.replicate
              ((chunkLoopFuel dc fuel (pySliceTo s dc) (pySliceFrom s dc)).length
                * dc.toNat - s.length) ' ' := by
  have h0 : (0 : Int) ≤ dc := by omega
  have hdN : 1 ≤ dc.toNat := by omega
  intro fuel
  induction fuel with
  | zero => intro s h; omega
  | succ n ih =>
    intro s hs
    by_cases hnil : s = []
    · subst hnil
      simp only [pySliceTo, pySliceFrom, List.take_nil, List.drop_nil, chunkLoopFuel_nil]
      refine ⟨?_, by simp, by simp⟩
      simp only [List.length_nil]
      rw [Nat.div_eq_of_lt (by omega)]
    · have hp : pySliceTo s dc ≠ [] := pySliceTo_ne_nil s dc hdc hnil
      have hstep : chunkLoopFuel dc (n + 1) (pySliceTo s dc) (pySliceFrom s dc)
          = pyLjust (pySliceTo s dc) dc ::
            chunkLoopFuel dc n (pySliceTo (pySliceFrom s dc) dc)
              (pySliceFrom (pySliceFrom s dc) dc) := by
        simp [chunkLoopFuel, hp]
      have hLpos : 1 ≤ s.length := List.length_pos.mpr hnil
      have hRlen : (pySliceFrom s dc).length = s.length - dc.toNat :=
        pySliceFrom_length s dc h0
      have hRlt : (pySliceFrom s dc).length < n := by omega
      obtain ⟨ihLen, ihMem, ihFlat⟩ := ih (pySliceFrom s dc) hRlt
      have hPlen : (pySliceTo s dc).length = min dc.toNat s.length :=
        pySliceTo_length s dc h0
      have hLjLen : (pyLjust (pySliceTo s dc) dc).length = dc.toNat := by
        rw [pyLjust_length, hPlen]
        omega
      refine ⟨?_, ?_, ?_⟩
      · rw [hstep]
        simp only [List.length_cons]
        rw [ihLen, hRlen, ceil_div_step dc.toNat s.length hdN hLpos]
        omega
      · intro c hc
        rw [hstep] at hc
        rcases List.mem_cons.mp hc with h | h
        · rw [h, hLjLen]
        · exact ihMem c h
      · rw [hstep]
        simp only [List.flatten_cons, List.length_cons]
        rw [ihFlat, ihLen, hRlen]
        rcases le_or_lt s.length dc.toNat with hle | hlt
        · have hR : pySliceFrom s dc = [] := by
            have := hRlen
            rcases List.eq_nil_or_concat (pySliceFrom s dc) with h | ⟨l, a, h⟩
            · exact h
            · exfalso
              have hlen2 : (pySliceFrom s dc).length = 0 := by omega
              rw [h] at hlen2
              simp at hlen2
          have hP : pySliceTo s dc = s := by
            rw [pySliceTo_of_nonneg _ _ h0]
            exact List.take_of_length_le (by omega)
          rw [hR]
          simp only [List.nil_append]
          unfold pyLjust
          rw [hP]
          have hc1 : (s.length - dc.toNat + dc.toNat - 1) / dc.toNat = 0 :=
            Nat.div_eq_of_lt (by omega)
          rw [hc1]
          have hc2 : (0 + 1) * dc.toNat - s.length = dc.toNat - s.length := by omega
          simp [hc2]
        · have hPfull : (pyLjust (pySliceTo s dc) dc) = pySliceTo s dc := by
            unfold pyLjust
            have : dc.toNat - (pySliceTo s dc).length = 0 := by omega
            simp [this]
          rw [hPfull]
          rw [← List.append_assoc, slice_append]
          have harith :
              ((s.length - dc.toNat + dc.toNat - 1) / dc.toNat) * dc.toNat
                  - (s.length - dc.toNat)
                = ((s.length - dc.toNat + dc.toNat - 1) / dc.toNat + 1) * dc.toNat
                  - s.length := by
            generalize (s.length - dc.toNat + dc.toNat - 1) / dc.toNat = k
            have hkd : (k + 1) * dc.toNat = k * dc.toNat + dc.toNat := by ring
            omega
          rw [harith]

/-! Structure of the draw trace and the advanced state. -/

theorem chunkTexts_demTrace (color : Int) (bold : Bool) :
    ∀ (chunks : List (List Char)) (w : TextWindow),
      chunkTexts (demTrace color bold w chunks) = chunks := by
  intro chunks
  induction chunks with
  | nil => intro w; rfl
  | cons ps rest ih => intro w; simp [demTrace, chunkTexts, chunkOp, ih]

theorem demTrace_even_bold (color : Int) (bold : Bool) :
    ∀ (chunks : List (List Char)) (w : TextWindow),
      ∀ op ∈ evenEntries (demTrace color bold w chunks), op.bold = false := by
  intro chunks
  induction chunks with
  | nil => intro w op h; simp [demTrace, evenEntries] at h
  | cons ps rest ih =>
    intro w op h
    simp only [demTrace, evenEntries] at h
    rcases List.mem_cons.mp h with h | h
    · rw [h]; rfl
    · exact ih (updateW w color ps) op h

theorem demTrace_odd_attrs (color : Int) (bold : Bool) :
    ∀ (chunks : List (List Char)) (w : TextWindow),
      ∀ op ∈ oddEntries (demTrace color bold w chunks),
        op.bold = bold ∧ op.color = color := by
  intro chunks
  induction chunks with
  | nil => intro w op h; simp [demTrace, oddEntries] at h
  | cons ps rest ih =>
    intro w op h
    simp only [demTrace, oddEntries] at h
    rcases List.mem_cons.mp h with h | h
    · rw [h]; exact ⟨rfl, rfl⟩
    · exact ih (updateW w color ps) op h

theorem advState_prevText (color : Int) :
    ∀ (chunks : List (List Char)) (w : TextWindow),
      (advState color w chunks).PreviousLineText
        = chunks.getLast?.getD w.PreviousLineText := by
  intro chunks
  induction chunks with
  | nil => intro w; rfl
  | cons ps rest ih =>
    intro w
    have step : advState color w (ps :: rest) = advState color (updateW w color ps) rest := rfl
    rw [step, ih]
    cases rest with
    | nil => rfl
    | cons q qs =>
      rw [List.getLast?_cons_cons]
      have hq : (q :: qs).getLast?.isSome := by
        rw [List.getLast?_isSome]
        simp
      obtain ⟨v, hv⟩ := Option.isSome_iff_exists.mp hq
      rw [hv]
      rfl

theorem wrapAdjust_prevText (w : TextWindow) :
    (wrapAdjust w).PreviousLineText = w.PreviousLineText := by
  by_cases h : w.DisplayRows < w.CurrentRow <;>
    by_cases h2 : w.ShowBorder = "Y" <;> simp [wrapAdjust, h, h2]

/-! Bridging ScrollPrint to the chunk-list semantics. -/

theorem scrollPrint_eq (w : TextWindow) (t now : List Char) (color : Int)
    (ts bold : Bool) :
    ScrollPrint w t color ts bold now =
      (if (loopSem color bold w (scrollChunks w.DisplayColumns (processLine t ts now)) []).2.2 then
        { w := (loopSem color bold w (scrollChunks w.DisplayColumns (processLine t ts now)) []).1
          ops := (loopSem color bold w (scrollChunks w.DisplayColumns (processLine t ts now)) []).2.1
          err := some ("PrintLine: ".toList ++ processLine t ts now) }
      else
        { w := wrapAdjust (loopSem color bold w (scrollChunks w.DisplayColumns (processLine t ts now)) []).1
          ops := (loopSem color bold w (scrollChunks w.DisplayColumns (processLine t ts now)) []).2.1
          err := none }) := by
  simp only [ScrollPrint, scrollChunks, scrollLoopFuel_eq_loopSem]

theorem scrollPrint_ops (w : TextWindow) (t now : List Char) (color : Int)
    (ts bold : Bool) :
    (ScrollPrint w t color ts bold now).ops =
      (loopSem color bold w (scrollChunks w.DisplayColumns (processLine t ts now)) []).2.1 := by
  rw [scrollPrint_eq]
  cases hb : (loopSem color bold w (scrollChunks w.DisplayColumns (processLine t ts now)) []).2.2 <;>
    simp [hb]

theorem scrollPrint_ok (w : TextWindow) (t now : List Char) (color : Int)
    (ts bold : Bool)
    (herr : (ScrollPrint w t color ts bold now).err = none) :
    demOk color bold w (scrollChunks w.DisplayColumns (processLine t ts now)) = true ∧
    (ScrollPrint w t color ts bold now).ops =
      demTrace color bold w (scrollChunks w.DisplayColumns (processLine t ts now)) ∧
    (ScrollPrint w t color ts bold now).w =
      wrapAdjust (advState color w (scrollChunks w.DisplayColumns (processLine t ts now))) := by
  rw [scrollPrint_eq] at herr
  cases hb : (loopSem color bold w (scrollChunks w.DisplayColumns (processLine t ts now)) []).2.2 with
  | true => rw [hb] at herr; simp at herr
  | false =>
    have hdem := loopSem_no_err color bold _ w [] hb
    have hres := loopSem_ok color bold _ w [] hdem
    refine ⟨hdem, ?_, ?_⟩
    · rw [scrollPrint_eq, hres]
      simp
    · rw [scrollPrint_eq, hres]
      simp

theorem scrollPrint_err_cases (w : TextWindow) (t now : List Char) (color : Int)
    (ts bold : Bool) :
    (ScrollPrint w t color ts bold now).err = none ∨
    (ScrollPrint w t color ts bold now).err =
      some ("PrintLine: ".toList ++ processLine t ts now) := by
  rw [scrollPrint_eq]
  cases hb : (loopSem color bold w (scrollChunks w.DisplayColumns (processLine t ts now)) []).2.2 <;>
    simp [hb]

theorem loopSem_acc (color : Int) (bold : Bool) (chunks : List (List Char))
    (w : TextWindow) (acc : List DrawOp) :
    ∃ tail, (loopSem color bold w chunks acc).2.1 = acc ++ tail := by
  obtain ⟨k, hk⟩ := loopSem_ops_take color bold chunks w acc
  exact ⟨_, hk⟩

theorem loopSem_head (color : Int) (bold : Bool) (w : TextWindow)
    (chunks : List (List Char)) (hne : chunks ≠ [])
    (hok : addstrOk w.rows w.columns (prevOp w) = true) :
    ((loopSem color bold w chunks []).2.1).head? = some (prevOp w) := by
  cases chunks with
  | nil => exact absurd rfl hne
  | cons ps rest =>
    by_cases h2 : addstrOk w.rows w.columns (chunkOp w color bold ps)
    · obtain ⟨tail, htail⟩ :=
        loopSem_acc color bold rest (updateW w color ps)
          [prevOp w, chunkOp w color bold ps]
      simp [loopSem, hok, h2, htail]
    · simp [loopSem, hok, h2]

theorem scrollChunks_ne_nil (dc : Int) (t : List Char)
    (h : pySliceTo t dc ≠ []) : scrollChunks dc t ≠ [] := by
  unfold scrollChunks
  simp only [chunkLoopFuel, h, if_false, ite_false]
  simp

/-! Concrete instances used by the claim theorems. -/

/-- An undecorated 8-row, 20-column window on a 50x100 terminal
(display rows 0-7). -/
def c1win : TextWindow :=
  match mkTextWindow ⟨50, 100⟩ "w1" 8 20 0 0 "N" 2 3 with
  | Except.ok w => w
  | Except.error _ => default

def c1msg : List Char := "message".toList

/-- One single-line ScrollPrint of c1msg, keeping only the state. -/
def c1write (w : TextWindow) : TextWindow :=
  (ScrollPrint w c1msg 2 false true []).w

/-- Claim C1: the spec says the cursor row always stays inside
[0, display_rows) and wraps back to the first display row on overflow, so
that after 9 single-line writes to an 8-display-row undecorated window the
cursor row is 0 and no chunk is ever targeted at an out-of-bounds row.
The code's wrap check (CurrentRow > DisplayRows, checked only after
drawing) is off by one for undecorated windows: after 8 writes the cursor
row is already 8 = DisplayRows (one past the last display row 7), the 9th
write targets row 8, which is outside the window, so the drawing
collaborator raises, the exception is caught, only the demotion redraw is
drawn, and the cursor row stays 8 instead of wrapping to 0 (the
undecorated wrap branch of the source is unreachable). -/
theorem c1_undecorated_overflow :
    c1win.DisplayRows = 8 ∧ c1win.ShowBorder = "N" ∧ c1win.rows = 8 ∧
    (c1write^[8] c1win).CurrentRow = 8 ∧
    (ScrollPrint (c1write^[8] c1win) c1msg 2 false true []).err =
      some ("PrintLine: ".toList ++ c1msg) ∧
    (ScrollPrint (c1write^[8] c1win) c1msg 2 false true []).ops =
      [prevOp (c1write^[8] c1win)] ∧
    (ScrollPrint (c1write^[8] c1win) c1msg 2 false true []).w.CurrentRow = 8 := by
  set_option maxRecDepth 10000 in decide

/-- Claim C2, counterexample: on an 80-line, 200-column terminal a window
requested with 80 rows at row origin 0 gets effective rows
min(80, curses.LINES - 1 - 0) = 79, not min(requested, terminal_size -
origin) = min(80, 80 - 0) = 80 as the claim states. -/
theorem c2_counterexample :
    ((mkTextWindow ⟨80, 200⟩ "w" 80 40 0 0 "Y" 2 3).toOption.map TextWindow.rows
      = some 79) ∧
    ¬ ((mkTextWindow ⟨80, 200⟩ "w" 80 40 0 0 "Y" 2 3).toOption.map TextWindow.rows
      = some (min 80 (80 - 0))) := by
  decide

/-- Claim C2, amended: TextWindow construction computes the effective size
as min(requested, (terminal_size - 1) - origin) along each axis, raises a
size error if and only if either effective dimension is ≤ 0, and on
success the decorated display area is the effective size shrunk by 2 rows
and 2 columns (undecorated: the full effective size). -/
theorem c2_amended (term : Terminal) (name : String) (rows cols y1 x1 : Int)
    (sb : String) (bc tc : Int) :
    ((mkTextWindow term name rows cols y1 x1 sb bc tc).toOption = none ↔
      min rows (term.lines - 1 - y1) ≤ 0 ∨ min cols (term.cols - 1 - x1) ≤ 0) ∧
    (∀ w, (mkTextWindow term name rows cols y1 x1 sb bc tc).toOption = some w →
      w.rows = min rows (term.lines - 1 - y1) ∧
      w.columns = min cols (term.cols - 1 - x1) ∧
      (sb = "Y" → w.DisplayRows = w.rows - 2 ∧ w.DisplayColumns = w.columns - 2) ∧
      (sb ≠ "Y" → w.DisplayRows = w.rows ∧ w.DisplayColumns = w.columns)) := by
  simp only [mkTextWindow]
  by_cases h : min rows (term.lines - 1 - y1) ≤ 0 ∨ min cols (term.cols - 1 - x1) ≤ 0
  · rw [if_pos h]
    constructor
    · simp only [Except.toOption]
      simp only [true_iff, iff_true]
      omega
    · intro w hw
      simp [Except.toOption] at hw
  · rw [if_neg h]
    constructor
    · simp only [Except.toOption]
      constructor
      · intro hc
        simp at hc
      · intro hc
        omega
    · intro w hw
      simp only [Except.toOption, Option.some.injEq] at hw
      subst hw
      by_cases hsb : sb = "Y" <;> simp [hsb]

/-- The decorated 10x40 window at origin (0,0) on an 80x200 terminal of
the spec scenario. -/
def c2w : TextWindow :=
  match mkTextWindow ⟨80, 200⟩ "wd" 10 40 0 0 "Y" 2 3 with
  | Except.ok w => w
  | Except.error _ => default

/-- Witness for the amended claim C2, at the spec's scenario: a 10x40
decorated window at origin (0,0) on an 80x200 terminal is unclamped and
has an 8x38 display area. -/
theorem c2_amended_witness :
    c2w.rows = min 10 (((⟨80, 200⟩ : Terminal).lines - 1 - 0)) ∧
    c2w.columns = min 40 (((⟨80, 200⟩ : Terminal).cols - 1 - 0)) ∧
    (("Y" : String) = "Y" → c2w.DisplayRows = c2w.rows - 2 ∧
      c2w.DisplayColumns = c2w.columns - 2) ∧
    (("Y" : String) ≠ "Y" → c2w.DisplayRows = c2w.rows ∧
      c2w.DisplayColumns = c2w.columns) :=
  (c2_amended ⟨80, 200⟩ "wd" 10 40 0 0 "Y" 2 3).2 c2w (by
    show (mkTextWindow ⟨80, 200⟩ "wd" 10 40 0 0 "Y" 2 3).toOption = some c2w
    decide)

/-- Claim C4: TextPad.refresh recomputes the projected rectangle on every
call, clamping both corners of the screen region against the terminal's
current size with min, so the projection never exceeds the terminal
bounds; in particular a pad constructed with buffer 100x40 at screen
position (1,1) projects onto rows 1-7 (not 1-10) when the terminal is
only 8 rows tall. -/
theorem c4_refresh_clamps :
    (∀ (p : TextPad) (term : Terminal),
      p.refreshRect term =
        { y1 := min p.ypos (term.lines - 1)
          x1 := min p.xpos (term.cols - 1)
          y2 := min (p.ypos + p.height - 1) (term.lines - 1)
          x2 := min (p.xpos + p.width - 1) (term.cols - 1) } ∧
      (p.refreshRect term).y1 ≤ term.lines - 1 ∧
      (p.refreshRect term).x1 ≤ term.cols - 1 ∧
      (p.refreshRect term).y2 ≤ term.lines - 1 ∧
      (p.refreshRect term).x2 ≤ term.cols - 1) ∧
    ((mkTextPad ⟨102, 60⟩ "p" 100 40 1 1 10 40 "N" 2).toOption.map
        (fun p => p.refreshRect ⟨8, 60⟩)
      = some { y1 := 1, x1 := 1, y2 := 7, x2 := 40 }) := by
  refine ⟨fun p term => ⟨rfl, ?_, ?_, ?_, ?_⟩, by decide⟩ <;>
    · simp only [TextPad.refreshRect]
      omega

/-- Claim C5, counterexample: a TextPad's virtual buffer size is not
independent of the screen region.  Two pads requested with the same
100x40 buffer on a 30-line terminal, differing only in the screen row
origin (0 versus 20), get buffers of 29 and 9 rows respectively, and a
pad's buffer always has exactly the projection's height and width (so it
can never be larger than the on-screen region). -/
theorem c5_counterexample :
    ((mkTextPad ⟨30, 100⟩ "p" 100 40 0 0 10 40 "N" 2).toOption.map TextPad.padRows
      = some 29) ∧
    ((mkTextPad ⟨30, 100⟩ "p" 100 40 20 0 10 40 "N" 2).toOption.map TextPad.padRows
      = some 9) ∧
    (29 : Int) ≠ 9 ∧
    ((mkTextPad ⟨30, 100⟩ "p" 100 40 0 0 10 40 "N" 2).toOption.map
        (fun p => decide (p.padRows = p.height ∧ p.padCols = p.width))
      = some true) := by
  decide

/-- Claim C5, amended: TextPad construction applies the same size-clamping
and size-error policy as TextWindow, but the buffer is clamped against the
terminal size at the screen origin and its dimensions always equal the
projection height and width, so the buffer is determined by (and never
larger than) the nominal on-screen region. -/
theorem c5_amended (term : Terminal) (name nw : String)
    (rows cols y1 x1 y2 x2 : Int) (sb : String) (bc tc : Int) :
    ((mkTextPad term name rows cols y1 x1 y2 x2 sb bc).toOption = none ↔
      (mkTextWindow term nw rows cols y1 x1 sb bc tc).toOption = none) ∧
    (∀ p, (mkTextPad term name rows cols y1 x1 y2 x2 sb bc).toOption = some p →
      p.padRows = p.height ∧ p.padCols = p.width ∧
      p.height = min rows (term.lines - 1 - y1) ∧
      p.width = min cols (term.cols - 1 - x1)) := by
  simp only [mkTextPad, mkTextWindow]
  by_cases h : min rows (term.lines - 1 - y1) ≤ 0 ∨ min cols (term.cols - 1 - x1) ≤ 0
  · rw [if_pos h, if_pos h]
    constructor
    · simp [Except.toOption]
    · intro p hp
      simp [Except.toOption] at hp
  · rw [if_neg h, if_neg h]
    constructor
    · simp [Except.toOption]
    · intro p hp
      simp only [Except.toOption, Option.some.injEq] at hp
      subst hp
      exact ⟨rfl, rfl, rfl, rfl⟩

/-- The pad of the C5 counterexample with screen origin (0,0) on a 30x100
terminal. -/
def c5p : TextPad :=
  match mkTextPad ⟨30, 100⟩ "p" 100 40 0 0 10 40 "N" 2 with
  | Except.ok p => p
  | Except.error _ => default

/-- Witness for the amended claim C5, at a concrete pad: its buffer equals
the projection size, both clamped against the terminal at the origin. -/
theorem c5_amended_witness :
    c5p.padRows = c5p.height ∧ c5p.padCols = c5p.width ∧
    c5p.height = min 100 (((⟨30, 100⟩ : Terminal).lines - 1 - 0)) ∧
    c5p.width = min 40 (((⟨30, 100⟩ : Terminal).cols - 1 - 0)) :=
  (c5_amended ⟨30, 100⟩ "p" "w" 100 40 0 0 10 40 "N" 2 0).2 c5p (by decide)

/-- Claim C9: the y2 and x2 parameters of the TextPad constructor have no
effect: construction with different y2/x2 values and otherwise identical
arguments produces identical pads, so every subsequent operation (which is
a function of the pad state and its other arguments) behaves
identically. -/
theorem c9_y2x2_unused (term : Terminal) (name : String)
    (rows cols y1 x1 y2 x2 y2b x2b : Int) (sb : String) (bc : Int) :
    mkTextPad term name rows cols y1 x1 y2 x2 sb bc =
      mkTextPad term name rows cols y1 x1 y2b x2b sb bc := rfl

/-- Claim C3: for every input text whose tab-expanded (and optionally
timestamped) form is longer than the display width, ScrollPrint draws
exactly ceil(len/display_columns) chunks, in order (their concatenation is
the processed text followed by the final chunk's space padding), each
chunk exactly display_columns characters long. -/
theorem c3_chunking (w : TextWindow) (t now : List Char) (color : Int)
    (ts bold : Bool)
    (hdc : 1 ≤ w.DisplayColumns)
    (hlen : w.DisplayColumns.toNat < (processLine t ts now).length)
    (herr : (ScrollPrint w t color ts bold now).err = none) :
    chunkTexts (ScrollPrint w t color ts bold now).ops =
      scrollChunks w.DisplayColumns (processLine t ts now) ∧
    (chunkTexts (ScrollPrint w t color ts bold now).ops).length =
      ((processLine t ts now).length + w.DisplayColumns.toNat - 1) /
        w.DisplayColumns.toNat ∧
    (∀ c ∈ chunkTexts (ScrollPrint w t color ts bold now).ops,
      c.length = w.DisplayColumns.toNat) ∧
    (chunkTexts (ScrollPrint w t color ts bold now).ops).flatten =
      processLine t ts now ++
        List.replicate
          ((chunkTexts (ScrollPrint w t color ts bold now).ops).length *
            w.DisplayColumns.toNat - (processLine t ts now).length) ' ' := by
  obtain ⟨hdem, hops, hw⟩ := scrollPrint_ok w t now color ts bold herr
  have hct : chunkTexts (ScrollPrint w t color ts bold now).ops =
      scrollChunks w.DisplayColumns (processLine t ts now) := by
    rw [hops, chunkTexts_demTrace]
  have hfuel : (processLine t ts now).length <
      (pySliceTo (processLine t ts now) w.DisplayColumns).length +
        (pySliceFrom (processLine t ts now) w.DisplayColumns).length + 1 := by
    rw [slice_length_add]
    omega
  obtain ⟨hL, hM, hJ⟩ :=
    chunkLoop_spec w.DisplayColumns hdc _ (processLine t ts now) hfuel
  have hsc : scrollChunks w.DisplayColumns (processLine t ts now) =
      chunkLoopFuel w.DisplayColumns
        ((pySliceTo (processLine t ts now) w.DisplayColumns).length +
          (pySliceFrom (processLine t ts now) w.DisplayColumns).length + 1)
        (pySliceTo (processLine t ts now) w.DisplayColumns)
        (pySliceFrom (processLine t ts now) w.DisplayColumns) := rfl
  refine ⟨hct, ?_, ?_, ?_⟩
  · rw [hct, hsc]
    exact hL
  · rw [hct, hsc]
    exact hM
  · rw [hct, hsc]
    exact hJ

/-- An undecorated 8-row, 22-column window on a 50x100 terminal, used as a
concrete instance for the chunking claim. -/
def c3w : TextWindow :=
  match mkTextWindow ⟨50, 100⟩ "w3" 8 22 0 0 "N" 2 3 with
  | Except.ok w => w
  | Except.error _ => default

def c3msg : List Char := List.replicate 50 'a'

/-- Witness for claim C3: a 50-character message on a 22-column display is
drawn as 3 chunks of 22 characters. -/
theorem c3_chunking_witness :
    chunkTexts (ScrollPrint c3w c3msg 2 false true []).ops =
      scrollChunks c3w.DisplayColumns (processLine c3msg false []) ∧
    (chunkTexts (ScrollPrint c3w c3msg 2 false true []).ops).length =
      ((processLine c3msg false []).length + c3w.DisplayColumns.toNat - 1) /
        c3w.DisplayColumns.toNat ∧
    (∀ c ∈ chunkTexts (ScrollPrint c3w c3msg 2 false true []).ops,
      c.length = c3w.DisplayColumns.toNat) ∧
    (chunkTexts (ScrollPrint c3w c3msg 2 false true []).ops).flatten =
      processLine c3msg false [] ++
        List.replicate
          ((chunkTexts (ScrollPrint c3w c3msg 2 false true []).ops).length *
            c3w.DisplayColumns.toNat - (processLine c3msg false []).length) ' ' :=
  c3_chunking c3w c3msg [] 2 false true (by decide) (by decide)
    (by set_option maxRecDepth 10000 in decide)

/-- Claim C6: on a ScrollPrint call that completes without a drawing
failure, the trace is exactly, for each chunk in order: the redraw of the
previously saved line at its saved row in its saved color without bold,
then the chunk at the cursor row in the requested color with the requested
emphasis; consequently every even-position draw is non-bold, every
odd-position draw carries the requested color and emphasis, and the last
chunk becomes the saved line that the next write will demote. -/
theorem c6_demotion (w : TextWindow) (t now : List Char) (color : Int)
    (ts bold : Bool)
    (herr : (ScrollPrint w t color ts bold now).err = none) :
    (ScrollPrint w t color ts bold now).ops =
      demTrace color bold w (scrollChunks w.DisplayColumns (processLine t ts now)) ∧
    (∀ op ∈ evenEntries (ScrollPrint w t color ts bold now).ops, op.bold = false) ∧
    (∀ op ∈ oddEntries (ScrollPrint w t color ts bold now).ops,
      op.bold = bold ∧ op.color = color) ∧
    (ScrollPrint w t color ts bold now).w.PreviousLineText =
      (scrollChunks w.DisplayColumns (processLine t ts now)).getLast?.getD
        w.PreviousLineText := by
  obtain ⟨hdem, hops, hw⟩ := scrollPrint_ok w t now color ts bold herr
  refine ⟨hops, ?_, ?_, ?_⟩
  · rw [hops]
    exact demTrace_even_bold color bold _ w
  · rw [hops]
    exact demTrace_odd_attrs color bold _ w
  · rw [hw, wrapAdjust_prevText, advState_prevText]

/-- An undecorated 8-row, 20-column window on a 50x100 terminal, used as a
concrete instance for the demotion claim. -/
def c6w : TextWindow :=
  match mkTextWindow ⟨50, 100⟩ "w6" 8 20 0 0 "N" 2 3 with
  | Except.ok w => w
  | Except.error _ => default

def c6msg : List Char := List.replicate 30 'b'

/-- Witness for claim C6, at a 30-character write on a 20-column display
(two chunks). -/
theorem c6_demotion_witness :
    (ScrollPrint c6w c6msg 5 false true []).ops =
      demTrace 5 true c6w (scrollChunks c6w.DisplayColumns (processLine c6msg false [])) ∧
    (∀ op ∈ evenEntries (ScrollPrint c6w c6msg 5 false true []).ops, op.bold = false) ∧
    (∀ op ∈ oddEntries (ScrollPrint c6w c6msg 5 false true []).ops,
      op.bold = true ∧ op.color = 5) ∧
    (ScrollPrint c6w c6msg 5 false true []).w.PreviousLineText =
      (scrollChunks c6w.DisplayColumns (processLine c6msg false [])).getLast?.getD
        c6w.PreviousLineText :=
  c6_demotion c6w c6msg [] 5 false true
    (by set_option maxRecDepth 10000 in decide)

/-- Claim C7: DisplayTitle truncates the stored title with
Title[0 : display_columns - 3] (so a long title is cut to exactly
display_columns - 3 characters) and draws it at the top border row 0,
column 2, in the configured title color, provided the window has at least
3 rows (and the title fits the window surface); for a window with fewer
than 3 rows it prints an error message and draws nothing, in both cases
without throwing. -/
theorem c7_title (w : TextWindow) :
    (2 < w.rows →
      addstrOk w.rows w.columns
        ⟨0, 2, pySliceTo w.Title (w.DisplayColumns - 3), w.TitleColor, false⟩ = true →
      DisplayTitle w =
        ⟨[⟨0, 2, pySliceTo w.Title (w.DisplayColumns - 3), w.TitleColor, false⟩],
          false, false⟩ ∧
      (3 ≤ w.DisplayColumns →
        (pySliceTo w.Title (w.DisplayColumns - 3)).length =
          min (w.DisplayColumns - 3).toNat w.Title.length ∧
        ((w.DisplayColumns - 3).toNat ≤ w.Title.length →
          (pySliceTo w.Title (w.DisplayColumns - 3)).length =
            (w.DisplayColumns - 3).toNat))) ∧
    (w.rows ≤ 2 →
      DisplayTitle w = ⟨[], true, false⟩) := by
  constructor
  · intro h3 hok
    constructor
    · simp [DisplayTitle, h3, hok]
    · intro hdc3
      have h0 : (0 : Int) ≤ w.DisplayColumns - 3 := by omega
      rw [pySliceTo_length _ _ h0]
      exact ⟨rfl, fun hle => by omega⟩
  · intro hle
    unfold DisplayTitle
    rw [if_neg (by omega)]

/-- A decorated 10x42 window whose stored title has 60 characters. -/
def c7winA : TextWindow :=
  { name := "a", rows := 10, columns := 42, y1 := 0, x1 := 0, y2 := 10, x2 := 10,
    ShowBorder := "Y", BorderColor := 2, CurrentRow := 1, StartColumn := 1,
    DisplayRows := 8, DisplayColumns := 40, PreviousLineText := [],
    PreviousLineRow := 0, PreviousLineColor := 2,
    Title := List.replicate 60 't', TitleColor := 3 }

/-- A 2-row window, too short for a title. -/
def c7winB : TextWindow :=
  { name := "b", rows := 2, columns := 42, y1 := 0, x1 := 0, y2 := 2, x2 := 2,
    ShowBorder := "Y", BorderColor := 2, CurrentRow := 1, StartColumn := 1,
    DisplayRows := 0, DisplayColumns := 40, PreviousLineText := [],
    PreviousLineRow := 0, PreviousLineColor := 2,
    Title := List.replicate 60 't', TitleColor := 3 }

/-- Witness for claim C7: a 60-character title on a 40-column display area
draws truncated to 37 characters at (0,2); a 2-row window reports an error
and draws nothing. -/
theorem c7_title_witness :
    (DisplayTitle c7winA =
      ⟨[⟨0, 2, pySliceTo c7winA.Title (c7winA.DisplayColumns - 3),
          c7winA.TitleColor, false⟩], false, false⟩ ∧
      (3 ≤ c7winA.DisplayColumns →
        (pySliceTo c7winA.Title (c7winA.DisplayColumns - 3)).length =
          min (c7winA.DisplayColumns - 3).toNat c7winA.Title.length ∧
        ((c7winA.DisplayColumns - 3).toNat ≤ c7winA.Title.length →
          (pySliceTo c7winA.Title (c7winA.DisplayColumns - 3)).length =
            (c7winA.DisplayColumns - 3).toNat))) ∧
    DisplayTitle c7winB = ⟨[], true, false⟩ :=
  ⟨(c7_title c7winA).1 (by decide) (by decide), (c7_title c7winB).2 (by decide)⟩

/-- Claim C8: a ScrollPrint call either completes with no caught exception,
or the exception raised by a drawing call is caught inside the operation,
the handler receives the processed text as diagnostic context
("PrintLine: " followed by the text), the method still returns a result
(the embedding is total), and the draws that happened are exactly a prefix
of the intended drawing sequence, leaving the instance in the partial
state it reached. -/
theorem c8_caught (w : TextWindow) (t now : List Char) (color : Int)
    (ts bold : Bool) :
    (ScrollPrint w t color ts bold now).err = none ∨
    ((ScrollPrint w t color ts bold now).err =
        some ("PrintLine: ".toList ++ processLine t ts now) ∧
      ∃ k, (ScrollPrint w t color ts bold now).ops =
        (demTrace color bold w
          (scrollChunks w.DisplayColumns (processLine t ts now))).take k) := by
  rcases scrollPrint_err_cases w t now color ts bold with h | h
  · exact Or.inl h
  · refine Or.inr ⟨h, ?_⟩
    obtain ⟨k, hk⟩ := loopSem_ops_take color bold
      (scrollChunks w.DisplayColumns (processLine t ts now)) w []
    refine ⟨k, ?_⟩
    rw [scrollPrint_ops, hk]
    simp

/-- Claim C10: Clear resets the cursor and start column but leaves the
saved last-line state (PreviousLineText, PreviousLineRow,
PreviousLineColor) unchanged, so the first ScrollPrint after Clear starts
by redrawing the pre-clear previous line's text, at its old row, in its
old color, without bold, into the cleared window. -/
theorem c10_clear_keeps_last_line (w : TextWindow) (t now : List Char)
    (color : Int) (ts bold : Bool)
    (hne : pySliceTo (processLine t ts now) w.DisplayColumns ≠ [])
    (hok : addstrOk w.rows w.columns (prevOp (ClearW w)) = true) :
    (ClearW w).PreviousLineText = w.PreviousLineText ∧
    (ClearW w).PreviousLineRow = w.PreviousLineRow ∧
    (ClearW w).PreviousLineColor = w.PreviousLineColor ∧
    (ClearW w).CurrentRow = (if w.ShowBorder = "Y" then 1 else 0) ∧
    (ScrollPrint (ClearW w) t color ts bold now).ops.head? =
      some (prevOp (ClearW w)) ∧
    (prevOp (ClearW w)).text = w.PreviousLineText ∧
    (prevOp (ClearW w)).row = w.PreviousLineRow ∧
    (prevOp (ClearW w)).color = w.PreviousLineColor ∧
    (prevOp (ClearW w)).bold = false := by
  refine ⟨rfl, rfl, rfl, rfl, ?_, rfl, rfl, rfl, rfl⟩
  rw [scrollPrint_ops]
  apply loopSem_head
  · apply scrollChunks_ne_nil
    exact hne
  · exact hok

/-- An undecorated window with one line already written, then cleared. -/
def c10win : TextWindow :=
  match mkTextWindow ⟨50, 100⟩ "w10" 8 20 0 0 "N" 2 3 with
  | Except.ok w => w
  | Except.error _ => default

def c10msg : List Char := "hello".toList

def c10after : TextWindow := (ScrollPrint c10win c10msg 2 false true []).w

/-- Witness for claim C10: after writing one line and clearing, the next
ScrollPrint first redraws the pre-clear saved line at its old row. -/
theorem c10_clear_witness :
    (ClearW c10after).PreviousLineText = c10after.PreviousLineText ∧
    (ClearW c10after).PreviousLineRow = c10after.PreviousLineRow ∧
    (ClearW c10after).PreviousLineColor = c10after.PreviousLineColor ∧
    (ClearW c10after).CurrentRow = (if c10after.ShowBorder = "Y" then 1 else 0) ∧
    (ScrollPrint (ClearW c10after) c10msg 4 false true []).ops.head? =
      some (prevOp (ClearW c10after)) ∧
    (prevOp (ClearW c10after)).text = c10after.PreviousLineText ∧
    (prevOp (ClearW c10after)).row = c10after.PreviousLineRow ∧
    (prevOp (ClearW c10after)).color = c10after.PreviousLineColor ∧
    (prevOp (ClearW c10after)).bold = false :=
  c10_clear_keeps_last_line c10after c10msg [] 4 false true (by decide) (by decide)
